import Mathlib

/-!
Shallow embedding of `crates/uv-python/src/platform.rs`: platform
identification types (`ArchVariant`, `Arch`, `Os`, `Libc`), their strict
parsers and canonical formatters, the architecture preference ordering,
the execution-compatibility predicate `Arch.supports`, and libc detection
`Libc.fromEnv`.

External collaborators (the `target_lexicon` vocabulary, the host libc
version probe, the hardware floating-point probe, the environment
variable override) are modelled as explicit parameters or finite
vocabularies, following the interface contracts of the specification.
-/

/-- Architecture variants, e.g., with support for different instruction sets
(`ArchVariant` in platform.rs). Declaration order is V2, V3, V4. -/
inductive ArchVariant where
  | V2
  | V3
  | V4
  deriving DecidableEq, Repr

/-- Rank of an `ArchVariant` in its declaration order, used to embed the
derived `Ord` of the Rust enum. -/
def ArchVariant.rank : ArchVariant → Nat
  | .V2 => 0
  | .V3 => 1
  | .V4 => 2

/-- Modelled from the spec: the error type of the host libc version probe
(`LibcDetectionError` from `crate::libc`, whose source is not part of this
fragment); an abstract payload suffices since the error is propagated
verbatim. -/
structure LibcDetectionError where
  code : Nat
  deriving DecidableEq, Repr

/-- Modelled from the spec: the error type of the hardware floating-point
probe (`crate::cpuinfo`, whose source is not part of this fragment). -/
structure ProbeError where
  code : Nat
  deriving DecidableEq, Repr

/-- Modelled from the spec: the result of the host libc version probe
(`LibcVersion` from `crate::libc`): glibc-based ("manylinux") with a
version, or musl-based ("musllinux") with a version. -/
inductive LibcVersion where
  | Manylinux (major minor : Nat)
  | Musllinux (major minor : Nat)
  deriving DecidableEq, Repr

/-- Modelled from the spec: the architecture-family vocabulary
(`target_lexicon::Architecture`), restricted to a finite sub-vocabulary
covering every family this fragment mentions, plus the `unknown`
sentinel. -/
inductive Family where
  | arm
  | armv5te
  | armv6
  | armv7
  | aarch64
  | i386
  | i586
  | i686
  | x86_64
  | powerpc
  | powerpc64
  | powerpc64le
  | s390x
  | riscv64
  | loongarch64
  | wasm32
  | unknown
  deriving DecidableEq, Repr

/-- Modelled from the spec: `target_lexicon::Architecture::from_str` on the
modelled vocabulary (canonical names only; the `"x86"` alias lives in
`parse_family`, not here). -/
def familyFromStrTL (s : String) : Option Family :=
  match s with
  | "arm" => Option.some .arm
  | "armv5te" => Option.some .armv5te
  | "armv6" => Option.some .armv6
  | "armv7" => Option.some .armv7
  | "aarch64" => Option.some .aarch64
  | "i386" => Option.some .i386
  | "i586" => Option.some .i586
  | "i686" => Option.some .i686
  | "x86_64" => Option.some .x86_64
  | "powerpc" => Option.some .powerpc
  | "powerpc64" => Option.some .powerpc64
  | "powerpc64le" => Option.some .powerpc64le
  | "s390x" => Option.some .s390x
  | "riscv64" => Option.some .riscv64
  | "loongarch64" => Option.some .loongarch64
  | "wasm32" => Option.some .wasm32
  | "unknown" => Option.some .unknown
  | _ => Option.none

/-- Modelled from the spec: `Display` of `target_lexicon::Architecture`
(the canonical family name; note `i686` formats as `"i686"` here — the
`"x86"` alias is applied by `Arch`'s own `Display`, not by the
vocabulary). -/
def familyToString : Family → String
  | .arm => "arm"
  | .armv5te => "armv5te"
  | .armv6 => "armv6"
  | .armv7 => "armv7"
  | .aarch64 => "aarch64"
  | .i386 => "i386"
  | .i586 => "i586"
  | .i686 => "i686"
  | .x86_64 => "x86_64"
  | .powerpc => "powerpc"
  | .powerpc64 => "powerpc64"
  | .powerpc64le => "powerpc64le"
  | .s390x => "s390x"
  | .riscv64 => "riscv64"
  | .loongarch64 => "loongarch64"
  | .wasm32 => "wasm32"
  | .unknown => "unknown"

/-- Modelled from the spec: the operating-system vocabulary
(`target_lexicon::OperatingSystem`), restricted to the identities the
specification names, plus the `unknown` sentinel. `darwin` stands for
`Darwin(None)`. -/
inductive OsKind where
  | linux
  | windows
  | darwin
  | freebsd
  | netbsd
  | openbsd
  | dragonfly
  | illumos
  | haiku
  | emscripten
  | unknown
  deriving DecidableEq, Repr

/-- Modelled from the spec: `target_lexicon::OperatingSystem::from_str` on
the modelled vocabulary (canonical names; the `"macos"` alias lives in
`Os.fromStr`, not here). -/
def osFromStrTL (s : String) : Option OsKind :=
  match s with
  | "linux" => Option.some .linux
  | "windows" => Option.some .windows
  | "darwin" => Option.some .darwin
  | "freebsd" => Option.some .freebsd
  | "netbsd" => Option.some .netbsd
  | "openbsd" => Option.some .openbsd
  | "dragonfly" => Option.some .dragonfly
  | "illumos" => Option.some .illumos
  | "haiku" => Option.some .haiku
  | "emscripten" => Option.some .emscripten
  | "unknown" => Option.some .unknown
  | _ => Option.none

/-- Modelled from the spec: `Display` of `target_lexicon::OperatingSystem`
(canonical names; `darwin` displays as `"darwin"` here — the `"macos"`
alias is applied by `Os`'s own `Display`). -/
def osKindToString : OsKind → String
  | .linux => "linux"
  | .windows => "windows"
  | .darwin => "darwin"
  | .freebsd => "freebsd"
  | .netbsd => "netbsd"
  | .openbsd => "openbsd"
  | .dragonfly => "dragonfly"
  | .illumos => "illumos"
  | .haiku => "haiku"
  | .emscripten => "emscripten"
  | .unknown => "unknown"

/-- Modelled from the spec: `target_lexicon::Environment`, restricted to
the four libc environments this fragment uses. -/
inductive Environment where
  | gnu
  | gnueabi
  | gnueabihf
  | musl
  deriving DecidableEq, Repr

/-- Modelled from the spec: `Display` of `target_lexicon::Environment`. -/
def environmentToString : Environment → String
  | .gnu => "gnu"
  | .gnueabi => "gnueabi"
  | .gnueabihf => "gnueabihf"
  | .musl => "musl"

/-- The `Arch` struct of platform.rs: an architecture family plus an
optional instruction-set variant. -/
structure Arch where
  family : Family
  variant : Option ArchVariant
  deriving DecidableEq, Repr

/-- The `Os` wrapper of platform.rs around the operating-system
vocabulary. -/
structure Os where
  inner : OsKind
  deriving DecidableEq, Repr

/-- The `Libc` enum of platform.rs: a specific libc environment, or no
specific libc. -/
inductive Libc where
  | some (env : Environment)
  | none
  deriving DecidableEq, Repr

/-- The `Error` enum of platform.rs. `UnsupportedVariant` carries the
formatted variant and family strings, as in the source. -/
inductive Error where
  | UnknownOs (s : String)
  | UnknownArch (s : String)
  | UnknownLibc (s : String)
  | UnsupportedVariant (variantStr : String) (familyStr : String)
  | LibcDetectionError (e : LibcDetectionError)
  deriving DecidableEq, Repr

/-- `impl Display for ArchVariant`. -/
def ArchVariant.toString : ArchVariant → String
  | .V2 => "v2"
  | .V3 => "v3"
  | .V4 => "v4"

/-- `impl FromStr for ArchVariant`: exact literals `v2`, `v3`, `v4`; the
error type is `()` as in the source. -/
def ArchVariant.fromStr (s : String) : Except Unit ArchVariant :=
  match s with
  | "v2" => .ok .V2
  | "v3" => .ok .V3
  | "v4" => .ok .V4
  | _ => .error ()

/-- Rust's `str::rsplit_once` on a list of characters: split at the last
occurrence of `c`, or `none` when `c` does not occur. -/
def rsplitOnceAux (c : Char) : List Char → Option (List Char × List Char)
  | [] => Option.none
  | ch :: rest =>
    match rsplitOnceAux c rest with
    | Option.some (pre, post) => Option.some (ch :: pre, post)
    | Option.none => if ch = c then Option.some ([], rest) else Option.none

/-- Rust's `str::rsplit_once` on strings. -/
def rsplitOnce (s : String) (c : Char) : Option (String × String) :=
  (rsplitOnceAux c s.data).map fun p => (String.mk p.1, String.mk p.2)

/-- The inner `parse_family` helper of `impl FromStr for Arch`: the
`"x86"` alias maps to `i686`, otherwise the vocabulary parser runs, and
the `unknown` sentinel is rejected with `UnknownArch`. -/
def parse_family (s : String) : Except Error Family :=
  match (match s with
    | "x86" => Except.ok Family.i686
    | _ =>
      match familyFromStrTL s with
      | Option.some f => Except.ok f
      | Option.none => Except.error (Error.UnknownArch s)) with
  | .ok f => if f = .unknown then .error (.UnknownArch s) else .ok f
  | .error e => .error e

/-- `impl FromStr for Arch`: first try to split off a trailing variant at
the last underscore; commit to that split only when both halves parse,
rejecting variants on any family other than `x86_64`; otherwise parse the
whole string as a bare family. -/
def Arch.fromStr (s : String) : Except Error Arch :=
  match rsplitOnce s '_' with
  | Option.some (famStr, varStr) =>
    match parse_family famStr, ArchVariant.fromStr varStr with
    | .ok family, .ok variant =>
      if family = .x86_64 then
        .ok ⟨family, Option.some variant⟩
      else
        .error (.UnsupportedVariant (ArchVariant.toString variant) (familyToString family))
    | _, _ =>
      match parse_family s with
      | .ok family => .ok ⟨family, Option.none⟩
      | .error e => .error e
  | Option.none =>
    match parse_family s with
    | .ok family => .ok ⟨family, Option.none⟩
    | .error e => .error e

/-- `impl Display for Arch`: the `i686` family formats as `"x86"`, every
other family via its canonical name; a variant is appended as `_v{2,3,4}`. -/
def Arch.toString (a : Arch) : String :=
  (match a.family with
    | .i686 => "x86"
    | f => familyToString f) ++
  (match a.variant with
    | Option.some v => "_" ++ ArchVariant.toString v
    | Option.none => "")

/-- `impl FromStr for Os`: `"macos"` maps to the Darwin identity,
everything else goes through the vocabulary parser, and the `unknown`
sentinel is rejected with `UnknownOs`. -/
def Os.fromStr (s : String) : Except Error Os :=
  match (match s with
    | "macos" => Except.ok OsKind.darwin
    | _ =>
      match osFromStrTL s with
      | Option.some k => Except.ok k
      | Option.none => Except.error (Error.UnknownOs s)) with
  | .ok k => if k = .unknown then .error (.UnknownOs s) else .ok ⟨k⟩
  | .error e => .error e

/-- `impl Display for Os`: the Darwin identity always formats as
`"macos"`; every other identity via its canonical name. -/
def Os.toString (o : Os) : String :=
  match o.inner with
  | .darwin => "macos"
  | k => osKindToString k

/-- `impl FromStr for Libc`: exactly the literals `gnu`, `gnueabi`,
`gnueabihf`, `musl`, `none`. -/
def Libc.fromStr (s : String) : Except Error Libc :=
  match s with
  | "gnu" => .ok (.some .gnu)
  | "gnueabi" => .ok (.some .gnueabi)
  | "gnueabihf" => .ok (.some .gnueabihf)
  | "musl" => .ok (.some .musl)
  | "none" => .ok .none
  | _ => .error (.UnknownLibc s)

/-- `impl Display for Libc`: `None` formats as `"none"`, `Some(env)` via
the environment's canonical name. -/
def Libc.toString : Libc → String
  | .some env => environmentToString env
  | .none => "none"

/-- Ordering comparison of optional variants, as Rust's derived `Ord` on
`Option<ArchVariant>`: `None` sorts before any `Some`, and `Some`s compare
by declaration order. -/
def variantCmp : Option ArchVariant → Option ArchVariant → Ordering
  | Option.none, Option.none => .eq
  | Option.none, Option.some _ => .lt
  | Option.some _, Option.none => .gt
  | Option.some x, Option.some y => compare x.rank y.rank

/-- Lexicographic comparison of character lists, as Rust's `Ord` on `str`
(byte order coincides with character order on the ASCII vocabulary in
use). -/
def listCmp : List Char → List Char → Ordering
  | [], [] => .eq
  | [], _ :: _ => .lt
  | _ :: _, [] => .gt
  | a :: as1, b :: bs1 =>
    match compare a.toNat b.toNat with
    | .eq => listCmp as1 bs1
    | o => o

/-- Lexicographic comparison of strings, as Rust's `Ord` on `String`. -/
def strCmp (a b : String) : Ordering :=
  listCmp a.data b.data

/-- `Arch::from_env`: the live host architecture, with the host family as
the injected environment query; the variant is always `None`. -/
def Arch.fromEnv (hostFamily : Family) : Arch :=
  ⟨hostFamily, Option.none⟩

/-- The `preferred` architecture computed inside `impl Ord for Arch`:
hard-coded `x86_64` on a Windows aarch64 host, otherwise the native
architecture from `Arch::from_env`. The `cfg!` predicate and the host
family are injected environment queries. -/
def preferredArch (windowsAarch64Host : Bool) (hostFamily : Family) : Arch :=
  if windowsAarch64Host then ⟨.x86_64, Option.none⟩ else Arch.fromEnv hostFamily

/-- `impl Ord for Arch`, with the computed `preferred` architecture as a
parameter. The result is `Option Ordering`: `none` embeds the
`unreachable!()` panic branch reached when both distinct families equal
the preferred family. -/
def Arch.cmpWith (preferred : Arch) (a b : Arch) : Option Ordering :=
  if a.family = b.family then
    Option.some (variantCmp a.variant b.variant)
  else if a.family = preferred.family then
    if b.family = preferred.family then
      Option.none
    else
      Option.some .lt
  else if b.family = preferred.family then
    Option.some .gt
  else
    Option.some (strCmp (familyToString a.family) (familyToString b.family))

/-- Does `f` match `target_lexicon::Architecture::Aarch64(_)`? -/
def Family.isAarch64 : Family → Bool
  | .aarch64 => true
  | _ => false

/-- `Arch::supports`: identity, plus transparent x86_64 emulation on an
aarch64 host when the host OS is Windows or macOS. The
`cfg!(windows) || cfg!(target_os = "macos")` condition is the injected
`windowsOrMacosHost` parameter. -/
def Arch.supports (windowsOrMacosHost : Bool) (self other : Arch) : Bool :=
  if self = other then
    true
  else if windowsOrMacosHost && self.family.isAarch64 then
    other.family == Family.x86_64
  else
    false

/-- `Libc::from_env`, with the environment as explicit parameters: the
host OS name (`std::env::consts::OS`), the `UV_LIBC` override variable
(`none` when unset), the host libc version probe result, the host CPU
family name (`std::env::consts::ARCH`), and the hardware floating-point
probe result. -/
def Libc.fromEnv (os : String) (uvLibc : Option String)
    (libcProbe : Except LibcDetectionError LibcVersion)
    (archStr : String) (fpProbe : Except ProbeError Bool) : Except Error Libc :=
  match os with
  | "linux" =>
    let detected : Except Error Libc :=
      match libcProbe with
      | .error e => .error (.LibcDetectionError e)
      | .ok (.Manylinux _ _) =>
        match archStr with
        | "arm" | "armv5te" | "armv7" =>
          match fpProbe with
          | .ok true => .ok (.some .gnueabihf)
          | .ok false => .ok (.some .gnueabi)
          | .error _ => .ok (.some .gnu)
        | _ => .ok (.some .gnu)
      | .ok (.Musllinux _ _) => .ok (.some .musl)
    match uvLibc with
    | Option.some v => if v ≠ "" then Libc.fromStr v else detected
    | Option.none => detected
  | "windows" | "macos" => .ok .none
  | _ => .ok .none

/-- Helper: `parse_family` never returns the `unknown` sentinel. -/
theorem parse_family_ne_unknown (s : String) (f : Family)
    (h : parse_family s = .ok f) : f ≠ Family.unknown := by
  unfold parse_family at h
  repeat' split at h
  all_goals simp_all

/-- Helper: every `parse_family` failure is `UnknownArch` carrying the
whole input. -/
theorem parse_family_error_eq (s : String) (e : Error)
    (h : parse_family s = .error e) : e = .UnknownArch s := by
  unfold parse_family at h
  split at h
  · split at h
    · cases h; rfl
    · cases h
  · rename_i e1 heq
    cases h
    split at heq
    · cases heq
    · split at heq
      · cases heq
      · cases heq; rfl

deriving instance DecidableEq for Except

/-- Helper: the wellformedness the parser guarantees for every `Arch` it
produces: no `unknown` family, and a variant only on `x86_64`. -/
theorem Arch.fromStr_ok_wf (s : String) (a : Arch) (h : Arch.fromStr s = .ok a) :
    a.family ≠ Family.unknown ∧
      (∀ v, a.variant = Option.some v → a.family = Family.x86_64) := by
  unfold Arch.fromStr at h
  repeat' split at h
  all_goals cases h
  all_goals exact ⟨parse_family_ne_unknown _ _ (by assumption), by simp_all⟩

/-- Helper: formatting a wellformed `Arch` and re-parsing recovers it. -/
theorem Arch.fromStr_toString_wf (a : Arch) (h1 : a.family ≠ Family.unknown)
    (h2 : ∀ v, a.variant = Option.some v → a.family = Family.x86_64) :
    Arch.fromStr (Arch.toString a) = .ok a := by
  obtain ⟨f, v⟩ := a
  rcases v with _ | v
  · cases f <;> first | (exact absurd rfl h1) | decide
  · have hx : f = Family.x86_64 := h2 v rfl
    subst hx
    cases v <;> decide

/-- Helper: `Os.fromStr` never returns the `unknown` sentinel. -/
theorem Os.fromStr_ok_ne_unknown (s : String) (o : Os) (h : Os.fromStr s = .ok o) :
    o.inner ≠ OsKind.unknown := by
  unfold Os.fromStr at h
  repeat' split at h
  all_goals cases h
  all_goals simp_all

/-- Helper: formatting any non-`unknown` `Os` and re-parsing recovers it. -/
theorem Os.fromStr_toString_ne_unknown (o : Os) (h : o.inner ≠ OsKind.unknown) :
    Os.fromStr (Os.toString o) = .ok o := by
  obtain ⟨k⟩ := o
  cases k <;> first | (exact absurd rfl h) | decide

/-- Helper: formatting any `Libc` value and re-parsing recovers it. -/
theorem Libc.fromStr_toString_libc (l : Libc) :
    Libc.fromStr (Libc.toString l) = .ok l := by
  rcases l with env | _
  · cases env <;> decide
  · decide

/-- Helper: formatting any `ArchVariant` and re-parsing recovers it. -/
theorem ArchVariant.fromStr_toString_variant (v : ArchVariant) :
    ArchVariant.fromStr (ArchVariant.toString v) = .ok v := by
  cases v <;> decide

/-- C1: for every string accepted by one of the four parsers
(`Arch.fromStr`, `Os.fromStr`, `Libc.fromStr`, `ArchVariant.fromStr`),
re-parsing the canonical formatting of the parsed value yields the same
parse result: parse (format (parse T)) = parse T. -/
theorem c1_round_trip :
    (∀ (s : String) (a : Arch), Arch.fromStr s = .ok a →
      Arch.fromStr (Arch.toString a) = Arch.fromStr s)
    ∧ (∀ (s : String) (o : Os), Os.fromStr s = .ok o →
      Os.fromStr (Os.toString o) = Os.fromStr s)
    ∧ (∀ (s : String) (l : Libc), Libc.fromStr s = .ok l →
      Libc.fromStr (Libc.toString l) = Libc.fromStr s)
    ∧ (∀ (s : String) (v : ArchVariant), ArchVariant.fromStr s = .ok v →
      ArchVariant.fromStr (ArchVariant.toString v) = ArchVariant.fromStr s) := by
  refine ⟨?_, ?_, ?_, ?_⟩
  · intro s a h
    rw [h]
    obtain ⟨h1, h2⟩ := Arch.fromStr_ok_wf s a h
    exact Arch.fromStr_toString_wf a h1 h2
  · intro s o h
    rw [h]
    exact Os.fromStr_toString_ne_unknown o (Os.fromStr_ok_ne_unknown s o h)
  · intro s l h
    rw [h]
    exact Libc.fromStr_toString_libc l
  · intro s v h
    rw [h]
    exact ArchVariant.fromStr_toString_variant v

/-- Witness for C1 at the concrete token `"x86_64_v3"`. -/
theorem c1_round_trip_witness :
    Arch.fromStr (Arch.toString ⟨Family.x86_64, Option.some ArchVariant.V3⟩) =
      Arch.fromStr "x86_64_v3" :=
  c1_round_trip.1 "x86_64_v3" ⟨Family.x86_64, Option.some ArchVariant.V3⟩ (by decide)

/-- Helper: the Boolean aarch64-family test agrees with equality to the
`aarch64` family. -/
theorem Family.isAarch64_eq (f : Family) :
    (Family.isAarch64 f = true) ↔ f = Family.aarch64 := by
  cases f <;> simp [Family.isAarch64]

/-- C2: the `Arch` comparison, for a fixed preferred architecture per
comparison: equal families compare by variant alone with
`None < Some V2 < Some V3 < Some V4`; else the side whose family equals
the preferred family sorts first; else the comparison is the
lexicographic comparison of the canonical family names. -/
theorem c2_arch_cmp :
    ∀ (pref a b : Arch),
      (a.family = b.family →
        Arch.cmpWith pref a b = Option.some (variantCmp a.variant b.variant))
      ∧ (a.family ≠ b.family → a.family = pref.family →
        Arch.cmpWith pref a b = Option.some .lt)
      ∧ (a.family ≠ b.family → a.family ≠ pref.family → b.family = pref.family →
        Arch.cmpWith pref a b = Option.some .gt)
      ∧ (a.family ≠ b.family → a.family ≠ pref.family → b.family ≠ pref.family →
        Arch.cmpWith pref a b =
          Option.some (strCmp (familyToString a.family) (familyToString b.family)))
      ∧ (∀ v, variantCmp Option.none (Option.some v) = .lt)
      ∧ variantCmp (Option.some ArchVariant.V2) (Option.some ArchVariant.V3) = .lt
      ∧ variantCmp (Option.some ArchVariant.V3) (Option.some ArchVariant.V4) = .lt := by
  intro pref a b
  refine ⟨?_, ?_, ?_, ?_, ?_, ?_, ?_⟩
  · intro h; simp [Arch.cmpWith, h]
  · intro h1 h2
    unfold Arch.cmpWith
    rw [if_neg h1, if_pos h2, if_neg (fun h3 => h1 (h2.trans h3.symm))]
  · intro h1 h2 h3; simp [Arch.cmpWith, h1, h2, h3]
  · intro h1 h2 h3; simp [Arch.cmpWith, h1, h2, h3]
  · intro v; rfl
  · decide
  · decide

/-- Witness for C2 with preferred family `x86_64`: the non-preferred
`aarch64` sorts after the preferred `x86_64`. -/
theorem c2_arch_cmp_witness :
    Arch.cmpWith ⟨Family.x86_64, Option.none⟩ ⟨Family.aarch64, Option.none⟩
      ⟨Family.x86_64, Option.none⟩ = Option.some .gt :=
  (c2_arch_cmp ⟨Family.x86_64, Option.none⟩ ⟨Family.aarch64, Option.none⟩
    ⟨Family.x86_64, Option.none⟩).2.2.1 (by decide) (by decide) (by decide)

/-- C9: the comparison never reaches its `unreachable!()` branch: for
every preferred architecture and every pair, `Arch.cmpWith` returns an
actual ordering. -/
theorem c9_cmp_never_panics :
    ∀ (pref a b : Arch), (Arch.cmpWith pref a b).isSome = true := by
  intro pref a b
  unfold Arch.cmpWith
  by_cases h1 : a.family = b.family
  · rw [if_pos h1]; rfl
  · rw [if_neg h1]
    by_cases h2 : a.family = pref.family
    · rw [if_pos h2]
      by_cases h3 : b.family = pref.family
      · exact absurd (h2.trans h3.symm) h1
      · rw [if_neg h3]; rfl
    · rw [if_neg h2]
      by_cases h3 : b.family = pref.family
      · rw [if_pos h3]; rfl
      · rw [if_neg h3]; rfl

/-- C3: `Arch.supports` holds exactly on identical architectures, or on a
Windows/macOS host whose own family is aarch64 against an `x86_64`-family
target; every other cross-family pair is unsupported on every host. -/
theorem c3_supports_iff :
    ∀ (windowsOrMacosHost : Bool) (a b : Arch),
      Arch.supports windowsOrMacosHost a b = true ↔
        (a = b ∨ (windowsOrMacosHost = true ∧ a.family = Family.aarch64 ∧
          b.family = Family.x86_64)) := by
  intro w a b
  unfold Arch.supports
  by_cases hab : a = b
  · simp [hab]
  · rw [if_neg hab]
    by_cases hcond : (w && a.family.isAarch64) = true
    · rw [if_pos hcond]
      rw [Bool.and_eq_true, Family.isAarch64_eq] at hcond
      simp only [beq_iff_eq]
      constructor
      · intro hb; exact Or.inr ⟨hcond.1, hcond.2, hb⟩
      · rintro (h | ⟨_, _, hb⟩)
        · exact absurd h hab
        · exact hb
    · rw [if_neg hcond]
      rw [Bool.and_eq_true, Family.isAarch64_eq] at hcond
      constructor
      · intro hf; simp at hf
      · rintro (h | ⟨hw, ha, _⟩)
        · exact absurd h hab
        · exact absurd ⟨hw, ha⟩ hcond

/-- C10: `Arch.fromEnv` always returns an architecture with no variant,
and the preferred architecture used inside the ordering never carries a
variant either. -/
theorem c10_from_env_no_variant :
    ∀ (hostFamily : Family) (windowsAarch64Host : Bool),
      (Arch.fromEnv hostFamily).variant = Option.none ∧
      (preferredArch windowsAarch64Host hostFamily).variant = Option.none := by
  intro f w
  refine ⟨rfl, ?_⟩
  cases w <;> rfl

/-- Helper: `rsplitOnceAux` finds nothing in a list not containing the
separator. -/
theorem rsplitOnceAux_eq_none (c : Char) (l : List Char) (h : c ∉ l) :
    rsplitOnceAux c l = Option.none := by
  induction l with
  | nil => rfl
  | cons ch rest ih =>
    have hch : ch ≠ c := fun hc => h (hc ▸ List.mem_cons_self ch rest)
    have hrest : c ∉ rest := fun hc => h (List.mem_cons_of_mem ch hc)
    unfold rsplitOnceAux
    rw [ih hrest]
    simp [hch]

/-- Helper: `rsplitOnceAux` splits at the last separator occurrence. -/
theorem rsplitOnceAux_append (c : Char) (l r : List Char) (h : c ∉ r) :
    rsplitOnceAux c (l ++ c :: r) = Option.some (l, r) := by
  induction l with
  | nil =>
    show rsplitOnceAux c (c :: r) = Option.some ([], r)
    unfold rsplitOnceAux
    rw [rsplitOnceAux_eq_none c r h]
    simp
  | cons ch l ih =>
    show rsplitOnceAux c (ch :: (l ++ c :: r)) = Option.some (ch :: l, r)
    unfold rsplitOnceAux
    rw [ih]

/-- Helper: `rsplitOnce` on `p ++ "_" ++ v` with an underscore-free suffix
returns exactly `(p, v)`. -/
theorem rsplitOnce_append (p v : String) (h : '_' ∉ v.data) :
    rsplitOnce (p ++ "_" ++ v) '_' = Option.some (p, v) := by
  unfold rsplitOnce
  have hdata : (p ++ "_" ++ v).data = p.data ++ '_' :: v.data := by
    simp [String.data_append]
  rw [hdata, rsplitOnceAux_append _ _ _ h]
  rfl

/-- Helper: the only strings an `ArchVariant` parses from are `v2`, `v3`,
`v4`. -/
theorem ArchVariant.fromStr_ok_cases (s : String) (v : ArchVariant)
    (h : ArchVariant.fromStr s = .ok v) : s = "v2" ∨ s = "v3" ∨ s = "v4" := by
  unfold ArchVariant.fromStr at h
  split at h
  all_goals simp_all

/-- C4: parsing `prefix ++ "_" ++ suffix` where the prefix parses as a
family and the suffix as a variant yields the family with that variant
when the family is `x86_64`, and `UnsupportedVariant` for every other
family; consequently every parsed `Arch` carries a variant only on the
`x86_64` family. -/
theorem c4_variant_parse :
    (∀ (p vstr : String) (fam : Family) (var : ArchVariant),
      parse_family p = .ok fam → ArchVariant.fromStr vstr = .ok var →
      Arch.fromStr (p ++ "_" ++ vstr) =
        if fam = Family.x86_64 then .ok ⟨fam, Option.some var⟩
        else .error (.UnsupportedVariant (ArchVariant.toString var) (familyToString fam)))
    ∧ (∀ (s : String) (a : Arch) (v : ArchVariant),
      Arch.fromStr s = .ok a → a.variant = Option.some v → a.family = Family.x86_64) := by
  constructor
  · intro p vstr fam var hp hv
    have hnd : '_' ∉ vstr.data := by
      rcases ArchVariant.fromStr_ok_cases vstr var hv with h | h | h <;> subst h <;> decide
    unfold Arch.fromStr
    rw [rsplitOnce_append p vstr hnd]
    dsimp only
    rw [hp, hv]
  · intro s a v h hv
    exact (Arch.fromStr_ok_wf s a h).2 v hv

/-- Witness for C4 at `"aarch64" ++ "_" ++ "v3"`: the variant is rejected
on a non-`x86_64` family. -/
theorem c4_variant_parse_witness :
    Arch.fromStr ("aarch64" ++ "_" ++ "v3") =
      .error (.UnsupportedVariant "v3" "aarch64") :=
  (c4_variant_parse.1 "aarch64" "v3" Family.aarch64 ArchVariant.V3
    (by decide) (by decide)).trans (by decide)

/-- C5: when the split at the last underscore does not have both halves
parse (family and variant), `Arch.fromStr` falls back to parsing the
entire original string as a bare family, failing with `UnknownArch`
carrying the whole input — never `UnsupportedVariant`; in particular
`"x86_64_v9"` fails with `UnknownArch "x86_64_v9"`. -/
theorem c5_fallback :
    (∀ (s pre post : String), rsplitOnce s '_' = Option.some (pre, post) →
      ((∀ f, parse_family pre ≠ .ok f) ∨ (∀ v, ArchVariant.fromStr post ≠ .ok v)) →
      Arch.fromStr s =
        (match parse_family s with
          | .ok f => .ok ⟨f, Option.none⟩
          | .error _ => .error (.UnknownArch s)))
    ∧ Arch.fromStr "x86_64_v9" = .error (.UnknownArch "x86_64_v9") := by
  constructor
  · intro s pre post hsplit hfail
    have hfb : (match parse_family s with
        | .ok family => (.ok ⟨family, Option.none⟩ : Except Error Arch)
        | .error e => .error e) =
        (match parse_family s with
          | .ok f => .ok ⟨f, Option.none⟩
          | .error _ => .error (.UnknownArch s)) := by
      rcases hps : parse_family s with e | f
      · rw [parse_family_error_eq s e hps]
      · rfl
    unfold Arch.fromStr
    rw [hsplit]
    dsimp only
    rcases hpre : parse_family pre with e1 | f1 <;>
      rcases hpost : ArchVariant.fromStr post with e2 | v2 <;> dsimp only
    · exact hfb
    · exact hfb
    · exact hfb
    · exfalso
      rcases hfail with hf | hf
      · exact hf f1 hpre
      · exact hf v2 hpost
  · decide

/-- Witness for C5 at `"arm_vx"`: the suffix `"vx"` is no variant, so the
whole string is re-parsed as a family and fails with `UnknownArch`. -/
theorem c5_fallback_witness :
    Arch.fromStr "arm_vx" = .error (.UnknownArch "arm_vx") := by
  have hvx : ∀ v, ArchVariant.fromStr "vx" ≠ .ok v := by
    intro v h
    have hev : ArchVariant.fromStr "vx" = .error () := by decide
    rw [hev] at h
    cases h
  exact (c5_fallback.1 "arm_vx" "arm" "vx" (by decide) (Or.inr hvx)).trans (by decide)

/-- C6: on Linux with the override variable set to a non-empty string,
`Libc.fromEnv` returns exactly what the strict parser returns on that
string, whatever both probes would report. -/
theorem c6_libc_override :
    ∀ (s : String) (probe : Except LibcDetectionError LibcVersion)
      (archStr : String) (fp : Except ProbeError Bool),
      s ≠ "" →
      Libc.fromEnv "linux" (Option.some s) probe archStr fp = Libc.fromStr s := by
  intro s probe archStr fp hs
  simp [Libc.fromEnv, hs]

/-- Witness for C6: override `"musl"` wins even when the libc probe would
fail. -/
theorem c6_libc_override_witness :
    Libc.fromEnv "linux" (Option.some "musl") (.error ⟨0⟩) "x86_64" (.ok true) =
      .ok (Libc.some Environment.musl) :=
  (c6_libc_override "musl" (.error ⟨0⟩) "x86_64" (.ok true) (by decide)).trans (by decide)

/-- C7: on Linux with no effective override and a glibc-based probe
result, the ARM 32-bit families select `gnueabihf` on a positive
floating-point probe, `gnueabi` on a negative one, and plain `gnu` when
that probe fails (the failure is swallowed); a failure of the libc
version probe itself is propagated. -/
theorem c7_arm_float_probe :
    ∀ (ov : Option String), (ov = Option.none ∨ ov = Option.some "") →
    ∀ (archStr : String), (archStr = "arm" ∨ archStr = "armv5te" ∨ archStr = "armv7") →
    ∀ (major minor : Nat) (fp : Except ProbeError Bool) (e : LibcDetectionError)
      (pe : ProbeError),
      (Libc.fromEnv "linux" ov (.ok (.Manylinux major minor)) archStr (.ok true) =
        .ok (Libc.some Environment.gnueabihf))
      ∧ (Libc.fromEnv "linux" ov (.ok (.Manylinux major minor)) archStr (.ok false) =
        .ok (Libc.some Environment.gnueabi))
      ∧ (Libc.fromEnv "linux" ov (.ok (.Manylinux major minor)) archStr (.error pe) =
        .ok (Libc.some Environment.gnu))
      ∧ (Libc.fromEnv "linux" ov (.error e) archStr fp =
        .error (.LibcDetectionError e)) := by
  intro ov hov archStr harch major minor fp e pe
  rcases hov with rfl | rfl <;> rcases harch with rfl | rfl | rfl <;>
    exact ⟨rfl, rfl, rfl, rfl⟩

/-- Witness for C7 on `"arm"` with a positive floating-point probe. -/
theorem c7_arm_float_probe_witness :
    Libc.fromEnv "linux" Option.none (.ok (.Manylinux 2 17)) "arm" (.ok true) =
      .ok (Libc.some Environment.gnueabihf) :=
  (c7_arm_float_probe Option.none (Or.inl rfl) "arm" (Or.inl rfl) 2 17
    (.ok true) ⟨0⟩ ⟨0⟩).1

/-- C8: on every non-Linux host, `Libc.fromEnv` returns `Ok None`
unconditionally, regardless of the override and both probes. -/
theorem c8_nonlinux :
    ∀ (os : String) (ov : Option String) (probe : Except LibcDetectionError LibcVersion)
      (archStr : String) (fp : Except ProbeError Bool),
      os ≠ "linux" →
      Libc.fromEnv os ov probe archStr fp = .ok Libc.none := by
  intro os ov probe archStr fp hos
  unfold Libc.fromEnv
  split <;> first | rfl | simp_all

/-- Witness for C8 on Windows with the override set to `"musl"`. -/
theorem c8_nonlinux_witness :
    Libc.fromEnv "windows" (Option.some "musl") (.error ⟨0⟩) "aarch64" (.ok true) =
      .ok Libc.none :=
  c8_nonlinux "windows" (Option.some "musl") (.error ⟨0⟩) "aarch64" (.ok true) (by decide)
